import Mathlib

/-!
Verification of the HKO (Hong Kong Observatory) home-automation integration
against its natural-language specification.  The Python modules under
custom_components/hk_observatory are shallowly embedded: pure helpers become
Lean functions, raising code paths return Except values, Python dicts become
association lists with overwrite-on-insert, and timestamps become minutes
since the Unix epoch (UTC).
-/

namespace HKO

/-- Python exception kinds raised by the code paths modelled here.
KeyError from missing dict keys, ValueError from failed int()/float()/strptime
conversions, and the AttributeError raised by dereferencing a failed regex
match (NoneType has no attribute group). -/
inductive PyExc where
  | keyError
  | valueError
  | attrError
  deriving DecidableEq, Repr

/-- The whitespace characters stripped by Python int()/float() conversion
(space, tab, newline, carriage return, vertical tab, form feed). -/
def isPyWs (c : Char) : Bool :=
  c == ' ' || c == '\t' || c == '\n' || c == '\r' || c == '\x0b' || c == '\x0c'

/-- Numeric value of an ASCII digit character. -/
def digitVal (c : Char) : Nat := c.toNat - 48

/-- Value of a list of decimal digit characters, most significant first. -/
def digitsToNat (l : List Char) : Nat :=
  l.foldl (fun a c => a * 10 + digitVal c) 0

/-- Strip Python whitespace from both ends of a character list
(the str.strip step performed by int() and float()). -/
def stripWs (l : List Char) : List Char :=
  ((l.dropWhile isPyWs).reverse.dropWhile isPyWs).reverse

/-- Digit-run scanner of Python int(): decimal digits where a single
underscore may separate two digits (PEP 515). -/
def digitsLoop : Nat → List Char → Option Nat
  | a, [] => some a
  | a, c :: r =>
    if c == '_' then
      match r with
      | [] => none
      | c2 :: r2 => if c2.isDigit then digitsLoop (a * 10 + digitVal c2) r2 else none
    else if c.isDigit then digitsLoop (a * 10 + digitVal c) r else none

/-- Unsigned decimal literal accepted by Python int() after sign removal:
a digit followed by digits optionally separated by single underscores. -/
def parseUDec : List Char → Option Nat
  | [] => none
  | c :: r => if c.isDigit then digitsLoop (digitVal c) r else none

/-- Whether the first character of the input is the given one. -/
def headIs (x : Char) : List Char → Bool
  | c :: _ => c == x
  | [] => false

/-- Model of Python int(str) on ASCII input: strip whitespace, optional sign,
then a decimal digit run.  (Non-ASCII digits are outside the feeds modelled.)
Returns none where int() raises ValueError. -/
def pyInt? (l : List Char) : Option Int :=
  let s := stripWs l
  if headIs '+' s then (parseUDec s.tail).map Int.ofNat
  else if headIs '-' s then (parseUDec s.tail).map (fun n => -(n : Int))
  else (parseUDec s).map Int.ofNat

/-- Nonempty run of plain decimal digits (helper for the float grammar). -/
def plainDigits? (l : List Char) : Option Nat :=
  if l.isEmpty then none
  else if l.all Char.isDigit then some (digitsToNat l) else none

/-- Mantissa of a Python float literal: digits, or digits.digits with at
least one digit present on one side of the point. -/
def mantVal? (l : List Char) : Option ℚ :=
  match l.span (fun c => c != '.') with
  | (ip, []) => (plainDigits? ip).map (fun n => (n : ℚ))
  | (ip, _ :: fp) =>
    if ip.isEmpty && fp.isEmpty then none
    else if ip.all Char.isDigit && fp.all Char.isDigit then
      some ((digitsToNat ip : ℚ) + (digitsToNat fp : ℚ) / (10 : ℚ) ^ fp.length)
    else none

/-- Exponent part of a Python float literal: optional sign then digits. -/
def expVal? : List Char → Option Int
  | '+' :: r => (plainDigits? r).map Int.ofNat
  | '-' :: r => (plainDigits? r).map (fun n => -(n : Int))
  | r => (plainDigits? r).map Int.ofNat

/-- Unsigned float body: mantissa with optional e/E exponent. -/
def floatBody? (m : List Char) : Option ℚ :=
  match m.span (fun c => c != 'e' && c != 'E') with
  | (mant, []) => mantVal? mant
  | (mant, _ :: ex) => do
    let mv ← mantVal? mant
    let e ← expVal? ex
    some (mv * (10 : ℚ) ^ e)

/-- Model of Python float(str) on finite decimal input, with rationals
standing in for IEEE doubles (the feed carries short decimal numerals, for
which the claims below never depend on rounding).  The inf/nan spellings and
underscore separators are outside the feeds modelled.  Returns none where
float() raises ValueError. -/
def pyFloat? (l : List Char) : Option ℚ :=
  match stripWs l with
  | '+' :: r => floatBody? r
  | '-' :: r => (floatBody? r).map Neg.neg
  | r => floatBody? r

/-- The slice chance[2:-1] from parse_chance_of_rain. -/
def pySliceTwoToLast (l : List Char) : List Char := (l.drop 2).dropLast

/-- The test chance.startswith of the single character used as less-than. -/
def startsLt : List Char → Bool
  | c :: _ => c == '<'
  | [] => false

/-- weather.py parse_chance_of_rain: on a string starting with the
less-than sign, int(chance[2:-1]) / 2 (Python true division, exact here);
otherwise int(chance[:-1]); a failed int() conversion yields None. -/
def parse_chance_of_rain (chance : String) : Option ℚ :=
  if startsLt chance.data then
    (pyInt? (pySliceTwoToLast chance.data)).map (fun n => (n : ℚ) / 2)
  else
    (pyInt? chance.data.dropLast).map (fun n => (n : ℚ))

/-!
Python dicts.  The dict built from a list of key-value pairs keeps the
position of the first occurrence of a key but overwrites its value on every
later occurrence; only the resulting key-to-value mapping matters here.
-/

/-- Assignment d[k] = v on an association list: overwrite in place if the
key is present, append otherwise. -/
def dinsert [DecidableEq κ] (m : List (κ × α)) (k : κ) (v : α) : List (κ × α) :=
  match m with
  | [] => [(k, v)]
  | (k2, v2) :: t => if k2 = k then (k, v) :: t else (k2, v2) :: dinsert t k v

/-- Lookup d.get(k) on an association list (keys are unique after dinsert). -/
def lookupD [DecidableEq κ] (m : List (κ × α)) (k : κ) : Option α :=
  match m with
  | [] => none
  | (k2, v) :: t => if k2 = k then some v else lookupD t k

/-- The Python dict(pairs) constructor: fold the pairs into an initially
empty dict, later pairs overwriting earlier ones with the same key. -/
def dictOf [DecidableEq κ] (ps : List (κ × α)) : List (κ × α) :=
  ps.foldl (fun m p => dinsert m p.1 p.2) []

/-- Value held by the last pair of the list carrying the given key
(the value dict(pairs).get(k) must report). -/
def lookupLast [DecidableEq κ] (ps : List (κ × α)) (k : κ) : Option α :=
  match ps with
  | [] => none
  | (k2, v) :: t =>
    match lookupLast t k with
    | some r => some r
    | none => if k2 = k then some v else none

/-!
const.py: the weather-code lookup table MAP_CONDITION and the closed set of
semantic conditions its values range over.  The Python dict literal has
pairwise distinct keys, so first-match lookup on the literal list agrees
with dict.get.
-/

/-- const.py MAP_CONDITION, as the association list of the dict literal. -/
def MAP_CONDITION : List (Int × String) :=
  [(50, "sunny"), (51, "partlycloudy"), (52, "partlycloudy"), (53, "rainy"),
   (54, "rainy"), (60, "cloudy"), (61, "cloudy"), (62, "rainy"), (63, "rainy"),
   (64, "pouring"), (65, "lightning-rainy"), (70, "clear-night"),
   (701, "cloudy"), (702, "partlycloudy"), (71, "clear-night"),
   (711, "cloudy"), (712, "partlycloudy"), (72, "clear-night"),
   (721, "cloudy"), (722, "partlycloudy"), (73, "clear-night"),
   (731, "cloudy"), (732, "partlycloudy"), (74, "clear-night"),
   (741, "cloudy"), (742, "partlycloudy"), (75, "clear-night"),
   (751, "cloudy"), (752, "partlycloudy"), (76, "cloudy"),
   (77, "partlycloudy"), (80, "windy"), (83, "fog"), (84, "fog"), (85, "fog")]

/-- MAP_CONDITION.get(code): absent for unknown codes, never an error. -/
def mapConditionGet (code : Int) : Option String := lookupD MAP_CONDITION code

/-- The closed set of semantic conditions named by the specification. -/
def CONDITION_SET : List String :=
  ["sunny", "partlycloudy", "rainy", "cloudy", "pouring", "lightning-rainy",
   "clear-night", "windy", "fog"]

/-!
hko_data.py warnings adapter and sensor.py warning parsing.
-/

/-- One object of the details array of the warnings feed.  The
warningStatementCode and subtype keys may be absent (Option), contents is a
list of free-text paragraphs. -/
structure WarnEntry where
  warningStatementCode : Option String
  subtype : Option String
  contents : List String
  deriving DecidableEq, Repr

/-- The WarningSet: a Python dict keyed by warning statement code. -/
abbrev WarningMap := List (String × WarnEntry)

/-- The list of pairs built inside dict(...) by _async_get_warnings:
(i of warningStatementCode, i) for each detail object i, in order; none if
some entry lacks the key (the KeyError case). -/
def warnPairs? : List WarnEntry → Option (List (String × WarnEntry))
  | [] => some []
  | e :: t =>
    match e.warningStatementCode with
    | none => none
    | some c => (warnPairs? t).map (fun ps => (c, e) :: ps)

/-- hko_data.py _async_get_warnings, from the decoded response body: the
details list may be absent (none), in which case the KeyError is caught and
an empty dict returned; the same catch fires if an entry lacks the code. -/
def getWarnings (details : Option (List WarnEntry)) : WarningMap :=
  match details with
  | none => []
  | some l =>
    match warnPairs? l with
    | none => []
    | some ps => dictOf ps

/-- The test subtype.startswith of the two-character tropical-cyclone tag. -/
def startsTC : List Char → Bool
  | 'T' :: 'C' :: _ => true
  | _ => false

/-- sensor.py _parse_warning for the description key tclevel: if the
warning dict has a WTCSGNL entry, read its subtype (KeyError if absent);
if the subtype starts with the TC tag, match the regex of TC followed by
one or more digits and convert the digit group with int().  When the regex
does not match, .group(1) is called on None and AttributeError is raised.
Subtypes not starting with the tag, and warning sets without WTCSGNL,
give None. -/
def parse_tclevel (data : WarningMap) : Except PyExc (Option Int) :=
  match lookupD data "WTCSGNL" with
  | none => .ok none
  | some w =>
    match w.subtype with
    | none => .error .keyError
    | some st =>
      match st.data with
      | 'T' :: 'C' :: rest =>
        let ds := rest.takeWhile Char.isDigit
        if ds.isEmpty then .error .attrError
        else .ok (some (digitsToNat ds : Int))
      | _ => .ok none

/-!
hko_data.py station-observation adapter: row selection and header-line
timestamp parsing.
-/

/-- One row of the delimited station table, keyed by its STN column value;
the remaining columns ride along untouched. -/
structure StationRow where
  stn : String
  fields : List (String × String)
  deriving DecidableEq, Repr

/-- Failure of the station selection step.  The source raises the plain dict
KeyError.  notFound is Modelled from the spec: the typed FetchError carrying
NotFound that the specification names; no code under src defines or raises
it, it exists here only to be compared against what the source does. -/
inductive StationExc where
  | keyError (key : String)
  | notFound (key : String)
  deriving DecidableEq, Repr

/-- The dict built by _async_get_station_data from the table rows:
dict of (x of STN, x) pairs. -/
def stationDict (rows : List StationRow) : List (String × StationRow) :=
  dictOf (rows.map (fun r => (r.stn, r)))

/-- The selection rawdata[climate_station_id] in _async_get_station_data:
the row whose STN equals the configured identifier, else a KeyError. -/
def selectStation (rows : List StationRow) (stationId : String) :
    Except StationExc StationRow :=
  match lookupD (stationDict rows) stationId with
  | some r => .ok r
  | none => .error (.keyError stationId)

/-- Consume an exact literal from the front of the input, as the literal
parts of a strptime format do on a well-formed feed line. -/
def dropLit? : List Char → List Char → Option (List Char)
  | [], l => some l
  | a :: lt, b :: t => if a = b then dropLit? lt t else none
  | _ :: _, [] => none

/-- A one- or two-digit number, as the strptime fields for hours, minutes
and day-of-month accept. -/
def parseNat2? : List Char → Option Nat
  | [a] => if a.isDigit then some (digitVal a) else none
  | [a, b] => if a.isDigit && b.isDigit then some (digitVal a * 10 + digitVal b) else none
  | _ => none

/-- A year of up to four digits, as the strptime year field accepts. -/
def parseYear4? (l : List Char) : Option Nat :=
  if l.isEmpty || decide (l.length > 4) || !(l.all Char.isDigit) then none
  else some (digitsToNat l)

/-- Gregorian leap-year rule. -/
def isLeap (y : Nat) : Bool := y % 4 == 0 && (y % 100 != 0 || y % 400 == 0)

/-- Length of a civil month, as the datetime constructor validates. -/
def daysInMonth (y m : Nat) : Nat :=
  if m == 2 then (if isLeap y then 29 else 28)
  else if m == 4 || m == 6 || m == 9 || m == 11 then 30
  else 31

/-- Full month names recognised by the strptime month-name field. -/
def MONTHS : List (String × Nat) :=
  [("January", 1), ("February", 2), ("March", 3), ("April", 4), ("May", 5),
   ("June", 6), ("July", 7), ("August", 8), ("September", 9),
   ("October", 10), ("November", 11), ("December", 12)]

/-- Consume one full month name from the front of the input. -/
def takeMonth? (l : List Char) : Option (Nat × List Char) :=
  MONTHS.foldr
    (fun p acc =>
      match dropLit? p.1.data l with
      | some rest => some (p.2, rest)
      | none => acc)
    none

/-- Days from 1970-01-01 to the given civil date (the standard era-based
civil-from-days algorithm, restricted to CE years so every intermediate
quantity is a Nat). -/
def daysFromCivil (y m d : Nat) : Int :=
  let y2 := if m ≤ 2 then y - 1 else y
  let era := y2 / 400
  let yoe := y2 - era * 400
  let mp := if m > 2 then m - 3 else m + 9
  let doy := (153 * mp + 2) / 5 + d - 1
  let doe := yoe * 365 + yoe / 4 - yoe / 100 + doy
  (Int.ofNat (era * 146097 + doe)) - 719468

/-- Minutes from the Unix epoch to the given civil date-time taken in UTC. -/
def civilMinutes (y m d hh mm : Nat) : Int :=
  daysFromCivil y m d * 1440 + hh * 60 + mm

/-- The strptime call of _async_get_station_data on the first feed line,
with the fixed format of the header (literal words, hour, colon, minute,
the Hong Kong Time words, day, month name, year), validated as the
datetime constructor does.  Yields the named naive local time. -/
def parseHeaderLine (s : String) : Option (Nat × Nat × Nat × Nat × Nat) := do
  let r1 ← dropLit? "Latest readings recorded at ".data s.data
  let (hTok, r2) := r1.span Char.isDigit
  let hh ← parseNat2? hTok
  let r3 ← dropLit? ":".data r2
  let (mTok, r4) := r3.span Char.isDigit
  let mm ← parseNat2? mTok
  let r5 ← dropLit? " Hong Kong Time ".data r4
  let (dTok, r6) := r5.span Char.isDigit
  let d ← parseNat2? dTok
  let r7 ← dropLit? " ".data r6
  let (mo, r8) ← takeMonth? r7
  let r9 ← dropLit? " ".data r8
  let (yTok, r10) := r9.span Char.isDigit
  let y ← parseYear4? yTok
  if r10.isEmpty && hh ≤ 23 && mm ≤ 59 && 1 ≤ d && d ≤ daysInMonth y mo then
    some (y, mo, d, hh, mm)
  else none

/-- The observation timestamp placed in the station record: the source
appends the fixed +0800 offset text and a %z field to the header line and
format, then converts the aware datetime to UTC; the resulting absolute
instant is the named local time minus eight hours, in epoch minutes. -/
def stationTimestampUTC (s : String) : Option Int :=
  (parseHeaderLine s).map
    (fun t =>
      match t with
      | (y, mo, d, hh, mm) => civilMinutes y mo d hh mm - 480)

/-!
weather.py forecast views.  An upstream forecast entry is a JSON object
whose values arrive as strings; absent keys are Option none.
-/

/-- One entry of the HourlyWeatherForecast or DailyForecast arrays, with
one optional field per upstream key read by weather.py. -/
structure FEntry where
  forecastHour : Option String
  forecastDate : Option String
  forecastWeather : Option String
  forecastDailyWeather : Option String
  forecastTemperature : Option String
  forecastMaximumTemperature : Option String
  forecastMinimumTemperature : Option String
  forecastWindDirection : Option String
  forecastWindSpeed : Option String
  forecastChanceOfRain : Option String
  deriving DecidableEq, Repr

/-- float(s) as an Except: ValueError where the conversion fails. -/
def pyFloatE (s : String) : Except PyExc ℚ :=
  match pyFloat? s.data with
  | some q => .ok q
  | none => .error .valueError

/-- int(s) as an Except: ValueError where the conversion fails. -/
def pyIntE (s : String) : Except PyExc Int :=
  match pyInt? s.data with
  | some n => .ok n
  | none => .error .valueError

/-- The pattern conv(entry[k]) if k in entry else None of the forecast
row construction. -/
def optField (f : String → Except PyExc α) : Option String → Except PyExc (Option α)
  | none => .ok none
  | some s => (f s).map some

/-- The strptime call on a forecast hour: ten digits YYYYMMDDHH at the
fixed +0800 offset, validated and rendered as the absolute instant in
epoch minutes (the isoformat string denotes exactly this instant). -/
def parseForecastHour? (s : String) : Option Int :=
  let l := s.data
  if (l.length == 10) && l.all Char.isDigit then
    let y := digitsToNat (l.take 4)
    let mo := digitsToNat ((l.drop 4).take 2)
    let d := digitsToNat ((l.drop 6).take 2)
    let h := digitsToNat (l.drop 8)
    if 1 ≤ mo && mo ≤ 12 && 1 ≤ d && d ≤ daysInMonth y mo && h ≤ 23 then
      some (civilMinutes y mo d h 0 - 480)
    else none
  else none

/-- The strptime call on a forecast date: eight digits YYYYMMDD at the
fixed +0800 offset, as an absolute instant in epoch minutes. -/
def parseForecastDate? (s : String) : Option Int :=
  let l := s.data
  if (l.length == 8) && l.all Char.isDigit then
    let y := digitsToNat (l.take 4)
    let mo := digitsToNat ((l.drop 4).take 2)
    let d := digitsToNat ((l.drop 6).take 2)
    if 1 ≤ mo && mo ≤ 12 && 1 ≤ d && d ≤ daysInMonth y mo then
      some (civilMinutes y mo d 0 0 - 480)
    else none
  else none

/-- One presented hourly forecast row (the dict built per entry). -/
structure HourlyRow where
  datetime : Int
  nativeTemp : Option ℚ
  nativeTempLow : Option ℚ
  windBearing : Option Int
  windSpeed : Option ℚ
  condition : Option String
  deriving DecidableEq, Repr

/-- One presented daily forecast row (the dict built per entry). -/
structure DailyRow where
  datetime : Int
  nativeTemp : Option ℚ
  nativeTempLow : Option ℚ
  precipProbability : Option ℚ
  condition : Option String
  deriving DecidableEq, Repr

/-- The row built by _get_forecast for one hourly entry, field by field in
source order: strptime of the hour (KeyError if the key is absent,
ValueError if malformed), float conversions of the optional numeric
fields, int of the wind direction, and the condition via MAP_CONDITION
on int of the weather code. -/
def projectHourly (e : FEntry) : Except PyExc HourlyRow := do
  let time ←
    match e.forecastHour with
    | none => Except.error PyExc.keyError
    | some s =>
      match parseForecastHour? s with
      | some t => Except.ok t
      | none => Except.error PyExc.valueError
  let temp ← optField pyFloatE e.forecastTemperature
  let templow ← optField pyFloatE e.forecastMinimumTemperature
  let bearing ← optField pyIntE e.forecastWindDirection
  let speed ← optField pyFloatE e.forecastWindSpeed
  let cond ←
    match e.forecastWeather with
    | none => Except.ok none
    | some s => (pyIntE s).map mapConditionGet
  Except.ok
    { datetime := time, nativeTemp := temp, nativeTempLow := templow,
      windBearing := bearing, windSpeed := speed, condition := cond }

/-- The row built by async_forecast_daily for one daily entry, field by
field in source order: strptime of the date, float conversions of the
max and min temperatures, parse_chance_of_rain of the optional
precipitation text (never raising), and the condition via MAP_CONDITION
on int of the daily weather code. -/
def projectDaily (e : FEntry) : Except PyExc DailyRow := do
  let time ←
    match e.forecastDate with
    | none => Except.error PyExc.keyError
    | some s =>
      match parseForecastDate? s with
      | some t => Except.ok t
      | none => Except.error PyExc.valueError
  let temp ← optField pyFloatE e.forecastMaximumTemperature
  let templow ← optField pyFloatE e.forecastMinimumTemperature
  let rain :=
    match e.forecastChanceOfRain with
    | none => none
    | some s => parse_chance_of_rain s
  let cond ←
    match e.forecastDailyWeather with
    | none => Except.ok none
    | some s => (pyIntE s).map mapConditionGet
  Except.ok
    { datetime := time, nativeTemp := temp, nativeTempLow := templow,
      precipProbability := rain, condition := cond }

/-- weather.py _get_forecast: the list comprehension over the hourly
entries guarded by membership of the ForecastWeather key, building rows
in order and raising out of the whole comprehension on the first bad
retained entry. -/
def get_forecast : List FEntry → Except PyExc (List HourlyRow)
  | [] => .ok []
  | e :: t =>
    if e.forecastWeather.isSome then do
      let r ← projectHourly e
      let rest ← get_forecast t
      .ok (r :: rest)
    else get_forecast t

/-- weather.py async_forecast_daily: the analogous comprehension over the
daily entries guarded by membership of the ForecastDailyWeather key. -/
def forecast_daily : List FEntry → Except PyExc (List DailyRow)
  | [] => .ok []
  | e :: t =>
    if e.forecastDailyWeather.isSome then do
      let r ← projectDaily e
      let rest ← forecast_daily t
      .ok (r :: rest)
    else forecast_daily t

/-- Specification-side sequencing: apply the projection to every element,
stopping at the first failure (used to compare the comprehension with a
filter of the upstream sequence followed by an in-order map). -/
def exceptMap (f : α → Except ε β) : List α → Except ε (List β)
  | [] => .ok []
  | a :: t => do
    let b ← f a
    let r ← exceptMap f t
    .ok (b :: r)

/-!
hko_data.py _async_update_data: the refresh cycle.
-/

/-- The station record returned by _async_get_station_data: the selected
row plus the header-line timestamp. -/
structure StationData where
  row : StationRow
  lastUpdated : Int
  deriving DecidableEq, Repr

/-- The structure returned by _async_get_forecast_data: the two upstream
sequences and the parsed LastModified instant. -/
structure ForecastData where
  hourly : List FEntry
  daily : List FEntry
  lastModified : Int
  deriving DecidableEq, Repr

/-- The opaque live-conditions mapping returned verbatim. -/
abbrev LiveData := List (String × String)

/-- Outcome of awaiting one fetch inside the ten-second envelope: a value,
a ClientConnectorError from the transport, or expiry of the overall
budget during this await (asyncio.TimeoutError). -/
inductive FetchOutcome (α : Type) where
  | ok (a : α)
  | connError
  | timedOut
  deriving DecidableEq, Repr

/-- Whether a fetch outcome carries a value. -/
def FetchOutcome.isOk : FetchOutcome α → Bool
  | .ok _ => true
  | _ => false

/-- The exception leaving _async_update_data on a failed cycle: the
except clause catches ClientConnectorError and raises UpdateFailed from
it, while a TimeoutError from the envelope is not caught there and
propagates as itself. -/
inductive RefreshExc where
  | updateFailed
  | timeoutError
  deriving DecidableEq, Repr

/-- The snapshot dict returned by a successful cycle, one field per
attribute key. -/
structure Snapshot where
  aws : StationData
  forecast : List FEntry
  dailyForecast : List FEntry
  forecastLastUpdated : Int
  other : LiveData
  warn : WarningMap
  deriving DecidableEq, Repr

/-- How one awaited fetch outcome leaves the try block of
_async_update_data. -/
def FetchOutcome.toExcept : FetchOutcome α → Except RefreshExc α
  | .ok a => .ok a
  | .connError => .error .updateFailed
  | .timedOut => .error .timeoutError

/-- hko_data.py _async_update_data over the outcomes of the four
sequential fetches: the first failing await aborts the cycle with the
corresponding exception; only when all four yield values is the snapshot
dict assembled and returned. -/
def update_data (o1 : FetchOutcome StationData) (o2 : FetchOutcome ForecastData)
    (o3 : FetchOutcome LiveData) (o4 : FetchOutcome WarningMap) :
    Except RefreshExc Snapshot := do
  let aws ← o1.toExcept
  let fc ← o2.toExcept
  let other ← o3.toExcept
  let warn ← o4.toExcept
  .ok
    { aws := aws, forecast := fc.hourly, dailyForecast := fc.daily,
      forecastLastUpdated := fc.lastModified, other := other, warn := warn }

/-- Kind of the failure ending a cycle early. -/
inductive FailKind where
  | conn
  | time
  deriving DecidableEq, Repr

/-- Failure kind of one outcome. -/
def FetchOutcome.failKind : FetchOutcome α → Option FailKind
  | .ok _ => none
  | .connError => some .conn
  | .timedOut => some .time

/-- The first failure among the four outcomes in the sequential order of
the awaits, if any. -/
def firstFailure (o1 : FetchOutcome StationData) (o2 : FetchOutcome ForecastData)
    (o3 : FetchOutcome LiveData) (o4 : FetchOutcome WarningMap) : Option FailKind :=
  o1.failKind.or (o2.failKind.or (o3.failKind.or o4.failKind))

/-- Whether an Except carries a value. -/
def exceptOk (r : Except ε α) : Bool :=
  match r with
  | .ok _ => true
  | .error _ => false

/-- Modelled from the spec: the host data-update coordinator (an external
collaborator, not code of this repository) publishes the snapshot of a
successful cycle and, on any raise out of the cycle, keeps the previous
snapshot authoritative. -/
def coordStep (prev : Option Snapshot) (result : Except RefreshExc Snapshot) :
    Option Snapshot :=
  match result with
  | .ok s => some s
  | .error _ => prev

/-!
Helper lemmas about the dict model.
-/

theorem lookupD_dinsert [DecidableEq κ] (m : List (κ × α)) (k2 k : κ) (v : α) :
    lookupD (dinsert m k2 v) k = if k2 = k then some v else lookupD m k := by
  induction m with
  | nil => simp [dinsert, lookupD]
  | cons p t ih =>
    obtain ⟨k3, v3⟩ := p
    by_cases h3 : k3 = k2
    · subst h3
      by_cases h : k3 = k <;> simp [dinsert, lookupD, h]
    · by_cases h : k3 = k
      · subst h
        have : ¬ k2 = k3 := fun he => h3 he.symm
        simp [dinsert, lookupD, h3, this]
      · simp [dinsert, lookupD, h3, h, ih]

theorem lookupD_foldl [DecidableEq κ] (ps : List (κ × α)) (m : List (κ × α)) (k : κ) :
    lookupD (ps.foldl (fun m p => dinsert m p.1 p.2) m) k =
      (lookupLast ps k).or (lookupD m k) := by
  induction ps generalizing m with
  | nil => simp [lookupLast]
  | cons p t ih =>
    obtain ⟨k2, v2⟩ := p
    rw [List.foldl_cons, ih]
    cases hlast : lookupLast t k with
    | some r => simp [lookupLast, hlast, Option.or]
    | none =>
      by_cases h : k2 = k <;>
        simp [lookupLast, hlast, lookupD_dinsert, h, Option.or]

theorem lookupD_dictOf [DecidableEq κ] (ps : List (κ × α)) (k : κ) :
    lookupD (dictOf ps) k = lookupLast ps k := by
  rw [dictOf, lookupD_foldl]
  cases lookupLast ps k <;> simp [lookupD, Option.or]

theorem lookupD_eq_none [DecidableEq κ] (ps : List (κ × α)) (k : κ)
    (h : k ∉ ps.map Prod.fst) : lookupD ps k = none := by
  induction ps with
  | nil => rfl
  | cons p t ih =>
    obtain ⟨k2, v2⟩ := p
    simp only [List.map_cons, List.mem_cons, not_or] at h
    have : ¬ k2 = k := fun he => h.1 he.symm
    simp [lookupD, this, ih h.2]

theorem lookupLast_map_eq_find [DecidableEq κ] [BEq κ] [LawfulBEq κ]
    (key : α → κ) (l : List α) (k : κ) :
    lookupLast (l.map (fun e => (key e, e))) k =
      l.reverse.find? (fun e => key e == k) := by
  induction l with
  | nil => rfl
  | cons e t ih =>
    rw [List.map_cons, List.reverse_cons, List.find?_append]
    show (match lookupLast (t.map (fun e => (key e, e))) k with
      | some r => some r
      | none => if key e = k then some e else none) = _
    rw [ih]
    cases h : List.find? (fun e => key e == k) t.reverse with
    | some r => simp [Option.or]
    | none =>
      by_cases hk : key e = k
      · simp [Option.or, List.find?, hk]
      · have hb : (key e == k) = false := beq_eq_false_iff_ne.mpr hk
        simp [Option.or, List.find?, hb, hk]

theorem mem_of_lookupLast_map [DecidableEq κ] [BEq κ] [LawfulBEq κ]
    (key : α → κ) (l : List α) (k : κ) (v : α)
    (h : lookupLast (l.map (fun e => (key e, e))) k = some v) :
    v ∈ l ∧ key v = k := by
  rw [lookupLast_map_eq_find] at h
  have hmem := List.mem_of_find?_eq_some h
  have hp := List.find?_some h
  rw [List.mem_reverse] at hmem
  exact ⟨hmem, by simpa using hp⟩

theorem lookupLast_map_isSome [DecidableEq κ] [BEq κ] [LawfulBEq κ]
    (key : α → κ) (l : List α) (k : κ) (v : α)
    (hv : v ∈ l) (hk : key v = k) :
    (lookupLast (l.map (fun e => (key e, e))) k).isSome := by
  rw [lookupLast_map_eq_find]
  rw [List.find?_isSome]
  exact ⟨v, by simpa using hv, by simpa using hk⟩

/-!
Helper lemmas about the Python integer parser on plain digit strings.
-/

theorem ws_not_digit (c : Char) (h : isPyWs c = true) : c.isDigit = false := by
  simp only [isPyWs, Bool.or_eq_true, beq_iff_eq] at h
  rcases h with ((((h | h) | h) | h) | h) | h <;> subst h <;> decide

theorem digit_not_ws (c : Char) (h : c.isDigit = true) : isPyWs c = false := by
  cases hw : isPyWs c with
  | false => rfl
  | true => rw [ws_not_digit c hw] at h; cases h

theorem dropWhile_eq_self_of (p : Char → Bool) (l : List Char)
    (h : ∀ c ∈ l, p c = false) : l.dropWhile p = l := by
  cases l with
  | nil => rfl
  | cons a t => simp [List.dropWhile_cons, h a (List.mem_cons_self a t)]

theorem stripWs_eq_self (l : List Char) (h : ∀ c ∈ l, isPyWs c = false) :
    stripWs l = l := by
  rw [stripWs, dropWhile_eq_self_of _ _ h, dropWhile_eq_self_of, List.reverse_reverse]
  intro c hc
  exact h c (List.mem_reverse.mp hc)

theorem digit_beq_false (c x : Char) (h : c.isDigit = true) (hx : x.isDigit = false) :
    (c == x) = false := by
  rw [beq_eq_false_iff_ne]
  intro he
  subst he
  rw [h] at hx
  cases hx

theorem digitsLoop_all_digits (r : List Char) (a : Nat)
    (h : ∀ c ∈ r, c.isDigit) :
    digitsLoop a r = some (r.foldl (fun x c => x * 10 + digitVal c) a) := by
  induction r generalizing a with
  | nil => simp [digitsLoop]
  | cons c t ih =>
    have hc := h c (List.mem_cons_self c t)
    have hu : (c == '_') = false := digit_beq_false c '_' hc (by decide)
    rw [digitsLoop.eq_def]
    simp only [hu, Bool.false_eq_true, if_false, hc, if_true, List.foldl_cons]
    exact ih _ (fun x hx => h x (List.mem_cons_of_mem c hx))

theorem parseUDec_digits (d : List Char) (hne : d ≠ [])
    (h : ∀ c ∈ d, c.isDigit) : parseUDec d = some (digitsToNat d) := by
  obtain ⟨c, t, rfl⟩ := List.exists_cons_of_ne_nil hne
  have hc := h c (List.mem_cons_self c t)
  rw [parseUDec, hc]
  simp only [if_true]
  rw [digitsLoop_all_digits t (digitVal c) (fun x hx => h x (List.mem_cons_of_mem c hx))]
  simp [digitsToNat, List.foldl_cons]

theorem pyInt_digits (d : List Char) (hne : d ≠ [])
    (h : ∀ c ∈ d, c.isDigit) : pyInt? d = some (Int.ofNat (digitsToNat d)) := by
  have hs : stripWs d = d := stripWs_eq_self d (fun c hc => digit_not_ws c (h c hc))
  obtain ⟨c, t, rfl⟩ := List.exists_cons_of_ne_nil hne
  have hc := h c (List.mem_cons_self c t)
  rw [pyInt?]
  simp only [hs, headIs, digit_beq_false c '+' hc (by decide),
    digit_beq_false c '-' hc (by decide), Bool.false_eq_true, if_false]
  rw [parseUDec_digits _ hne h]
  rfl

/-!
Claim theorems.
-/

/-- Evaluation of the parser on the unspaced less-than form of ten: the
slice from index two to the last keeps only the second digit. -/
theorem chance_of_rain_unspaced : parse_chance_of_rain "<10%" = some 0 := by
  have h : pyInt? (pySliceTwoToLast "<10%".data) = some 0 := by decide
  rw [parse_chance_of_rain, if_pos (show startsLt "<10%".data = true from rfl), h]
  simp

/-- C1, counterexample: the claim reads the less-than form without a space,
yet parse_chance_of_rain on that very string returns 0, not half of ten:
the slice from index two drops the first digit. -/
theorem chance_of_rain_cex :
    parse_chance_of_rain "<10%" = some 0 ∧ parse_chance_of_rain "<10%" ≠ some 5 := by
  refine ⟨chance_of_rain_unspaced, ?_⟩
  rw [chance_of_rain_unspaced]
  intro h
  have h2 : (0 : ℚ) = 5 := Option.some.inj h
  norm_num at h2

/-- C1 (amended): the parser handles the upstream less-than form with a
space between the sign and the number (as the source comment documents):
it drops the first two characters and the trailing percent sign and halves
the parsed integer, so the spaced form of N gives N over two, the plain
form gives N, any unparsable text gives absent, and the unspaced form of
ten gives 0 because the slice discards the first digit. -/
theorem chance_of_rain_spec :
    (∀ d : List Char, d ≠ [] → (∀ c ∈ d, c.isDigit) →
      parse_chance_of_rain (String.mk ('<' :: ' ' :: (d ++ ['%']))) =
          some ((digitsToNat d : ℚ) / 2) ∧
      parse_chance_of_rain (String.mk (d ++ ['%'])) =
          some ((digitsToNat d : ℚ))) ∧
    parse_chance_of_rain "N/A" = none ∧
    parse_chance_of_rain "<10%" = some 0 := by
  refine ⟨?_, by decide, chance_of_rain_unspaced⟩
  intro d hne hdig
  constructor
  · rw [parse_chance_of_rain,
      if_pos (show startsLt (String.mk ('<' :: ' ' :: (d ++ ['%']))).data = true from rfl)]
    have h2 : pySliceTwoToLast (String.mk ('<' :: ' ' :: (d ++ ['%']))).data = d := by
      show (d ++ ['%']).dropLast = d
      exact List.dropLast_concat
    rw [h2, pyInt_digits d hne hdig]
    simp
  · obtain ⟨c, t, rfl⟩ := List.exists_cons_of_ne_nil hne
    have hc := hdig c (List.mem_cons_self c t)
    rw [parse_chance_of_rain]
    have h1 : startsLt (String.mk ((c :: t) ++ ['%'])).data = false := by
      show (c == '<') = false
      exact digit_beq_false c '<' hc (by decide)
    rw [h1]
    simp only [Bool.false_eq_true, if_false]
    have h2 : (String.mk ((c :: t) ++ ['%'])).data.dropLast = c :: t := by
      show ((c :: t) ++ ['%']).dropLast = c :: t
      exact List.dropLast_concat
    rw [h2, pyInt_digits (c :: t) hne hdig]
    simp

/-- C1, witness: the spaced less-than form of ten gives five, the plain
form of thirty gives thirty. -/
theorem chance_of_rain_w :
    parse_chance_of_rain (String.mk ('<' :: ' ' :: (['1', '0'] ++ ['%']))) =
        some ((digitsToNat ['1', '0'] : ℚ) / 2) ∧
    parse_chance_of_rain (String.mk (['3', '0'] ++ ['%'])) =
        some ((digitsToNat ['3', '0'] : ℚ)) :=
  ⟨(chance_of_rain_spec.1 ['1', '0'] (by decide) (by decide)).1,
   (chance_of_rain_spec.1 ['3', '0'] (by decide) (by decide)).2⟩

/-- C7: the weather-code table is total over its own key set with values
in the closed condition set, and any code outside the key set (999 among
them) looks up to absent, never an error. -/
theorem condition_map_total :
    (∀ code ∈ MAP_CONDITION.map Prod.fst,
      (mapConditionGet code).isSome = true ∧
      (mapConditionGet code).getD "" ∈ CONDITION_SET) ∧
    mapConditionGet 999 = none ∧
    (∀ code : Int, code ∉ MAP_CONDITION.map Prod.fst → mapConditionGet code = none) := by
  refine ⟨by decide, by decide, ?_⟩
  intro code h
  exact lookupD_eq_none MAP_CONDITION code h

/-- C7, witness: code 50 maps into the closed set; code 1000 is outside
the table and maps to absent. -/
theorem condition_map_total_w :
    ((mapConditionGet 50).isSome = true ∧
     (mapConditionGet 50).getD "" ∈ CONDITION_SET) ∧
    mapConditionGet 1000 = none :=
  ⟨condition_map_total.1 50 (by decide), condition_map_total.2.2 1000 (by decide)⟩

/-- C8: parsing the fixed-format header line at the +0800 offset yields
the absolute UTC instant; the example line of 14:30 on 05 June 2024 in
Hong Kong yields 06:30 UTC of the same day, epoch minute 28626150. -/
theorem header_timestamp_utc :
    stationTimestampUTC
        "Latest readings recorded at 14:30 Hong Kong Time 05 June 2024" =
      some 28626150 ∧
    civilMinutes 2024 6 5 6 30 = 28626150 := by
  constructor <;> decide

/-- C2, counterexample: a WTCSGNL subtype that starts with the TC tag but
has no digit after it makes the tclevel parser raise AttributeError (the
regex match is None and group is called on it), not yield absent as the
claim states. -/
theorem tclevel_cex :
    parse_tclevel [("WTCSGNL", ⟨some "WTCSGNL", some "TCX", []⟩)] =
        .error .attrError ∧
    parse_tclevel [("WTCSGNL", ⟨some "WTCSGNL", some "TCX", []⟩)] ≠
        .ok none := by
  refine ⟨rfl, ?_⟩
  intro h
  exact Except.noConfusion h

/-- C2 (amended): with no WTCSGNL entry the level is absent; with a
subtype of the TC tag followed by digits the level is the integer of the
maximal digit run; with a subtype not starting with the tag the level is
absent; but a subtype starting with the tag and not followed by a digit
raises AttributeError instead of yielding absent. -/
theorem tclevel_spec :
    ∀ data : WarningMap,
      (lookupD data "WTCSGNL" = none → parse_tclevel data = .ok none) ∧
      (∀ w, lookupD data "WTCSGNL" = some w → ∀ st : String, w.subtype = some st →
        (∀ rest, st.data = 'T' :: 'C' :: rest →
          (rest.takeWhile Char.isDigit ≠ [] →
            parse_tclevel data =
              .ok (some ((digitsToNat (rest.takeWhile Char.isDigit) : Int)))) ∧
          (rest.takeWhile Char.isDigit = [] →
            parse_tclevel data = .error .attrError)) ∧
        (startsTC st.data = false → parse_tclevel data = .ok none)) := by
  intro data
  refine ⟨fun h => by simp [parse_tclevel, h], ?_⟩
  intro w hw st hst
  refine ⟨?_, ?_⟩
  · intro rest hrest
    refine ⟨?_, ?_⟩
    · intro hne
      have hie : (rest.takeWhile Char.isDigit).isEmpty = false := by
        cases hlist : rest.takeWhile Char.isDigit with
        | nil => exact absurd hlist hne
        | cons a b => rfl
      simp [parse_tclevel, hw, hst, hrest, hie]
    · intro hemp
      simp [parse_tclevel, hw, hst, hrest, hemp]
  · intro hTC
    simp only [parse_tclevel, hw, hst]
    split
    · rename_i rest heq
      rw [heq] at hTC
      simp [startsTC] at hTC
    · rfl

/-- C2, witness: the subtype TC8NE yields level eight. -/
theorem tclevel_w :
    parse_tclevel [("WTCSGNL", ⟨some "WTCSGNL", some "TC8NE", []⟩)] =
      .ok (some 8) := by
  have h := (((tclevel_spec [("WTCSGNL", ⟨some "WTCSGNL", some "TC8NE", []⟩)]).2
      ⟨some "WTCSGNL", some "TC8NE", []⟩ rfl "TC8NE" rfl).1
      ['8', 'N', 'E'] rfl).1 (by decide)
  exact h

/-- C3, counterexample: expiry of the ten-second envelope leaves the cycle
with a TimeoutError, which the except clause for connector errors does not
turn into UpdateFailed; the claim that both cases raise UpdateFailed fails
here (both still abort the cycle). -/
theorem refresh_abort_cex :
    update_data (FetchOutcome.timedOut : FetchOutcome StationData)
        .timedOut .timedOut .timedOut = .error .timeoutError ∧
    update_data (FetchOutcome.timedOut : FetchOutcome StationData)
        .timedOut .timedOut .timedOut ≠ .error .updateFailed := by
  refine ⟨rfl, ?_⟩
  intro h
  have h2 := Except.error.inj h
  cases h2

/-- C3 (amended): a transport-level connectivity error first in the
sequential batch aborts the cycle with UpdateFailed; expiry of the overall
ten-second budget aborts it with TimeoutError (not UpdateFailed); in both
cases no snapshot is produced and the coordinator keeps the previous one;
with no failure the cycle yields a snapshot. -/
theorem refresh_abort_spec :
    ∀ (o1 : FetchOutcome StationData) (o2 : FetchOutcome ForecastData)
      (o3 : FetchOutcome LiveData) (o4 : FetchOutcome WarningMap)
      (prev : Option Snapshot),
      (firstFailure o1 o2 o3 o4 = some FailKind.conn →
        update_data o1 o2 o3 o4 = .error .updateFailed ∧
        coordStep prev (update_data o1 o2 o3 o4) = prev) ∧
      (firstFailure o1 o2 o3 o4 = some FailKind.time →
        update_data o1 o2 o3 o4 = .error .timeoutError ∧
        coordStep prev (update_data o1 o2 o3 o4) = prev) ∧
      (firstFailure o1 o2 o3 o4 = none →
        ∃ s, update_data o1 o2 o3 o4 = .ok s) := by
  intro o1 o2 o3 o4 prev
  cases o1 <;> cases o2 <;> cases o3 <;> cases o4 <;>
    simp [update_data, firstFailure, FetchOutcome.toExcept, FetchOutcome.failKind,
      coordStep, Option.or, Except.instMonad, Except.bind]

/-- C3, witness: a connector error on the first fetch gives UpdateFailed
and leaves the previous (here empty) snapshot slot unchanged. -/
theorem refresh_abort_w :
    update_data (FetchOutcome.connError : FetchOutcome StationData)
        .timedOut .timedOut .timedOut = .error .updateFailed ∧
    coordStep none (update_data (FetchOutcome.connError : FetchOutcome StationData)
        .timedOut .timedOut .timedOut) = none :=
  (refresh_abort_spec .connError .timedOut .timedOut .timedOut none).1 rfl

/-- C9: a refresh cycle yields a snapshot exactly when all four fetches
succeeded, and the snapshot then carries all six fields assembled from the
four results together; no partial snapshot exists (the snapshot type has
no optional field). -/
theorem snapshot_all_or_nothing :
    (∀ (o1 : FetchOutcome StationData) (o2 : FetchOutcome ForecastData)
       (o3 : FetchOutcome LiveData) (o4 : FetchOutcome WarningMap),
       exceptOk (update_data o1 o2 o3 o4) =
         (o1.isOk && o2.isOk && o3.isOk && o4.isOk)) ∧
    (∀ (aws : StationData) (fc : ForecastData) (live : LiveData) (warn : WarningMap),
       update_data (.ok aws) (.ok fc) (.ok live) (.ok warn) =
         .ok { aws := aws, forecast := fc.hourly, dailyForecast := fc.daily,
               forecastLastUpdated := fc.lastModified, other := live,
               warn := warn }) := by
  constructor
  · intro o1 o2 o3 o4
    cases o1 <;> cases o2 <;> cases o3 <;> cases o4 <;> rfl
  · intro aws fc live warn
    rfl

/-- C4, counterexample: selecting an absent station identifier fails with
the plain dict KeyError of the source, which is not the typed NotFound
failure the claim names (no FetchError type exists in the code). -/
theorem station_select_cex :
    selectStation [⟨"HKO", []⟩] "XXX" = .error (.keyError "XXX") ∧
    StationExc.keyError "XXX" ≠ StationExc.notFound "XXX" := by
  refine ⟨rfl, ?_⟩
  intro h
  cases h

/-- C4 (amended): selecting by an identifier carried by exactly one row of
the table returns that row; selecting by an identifier absent from the STN
column raises the untyped dict KeyError (the source has no typed NotFound
failure). -/
theorem station_select_spec :
    (∀ (rows : List StationRow) (stationId : String) (r : StationRow),
      r ∈ rows → r.stn = stationId →
      (∀ r2 ∈ rows, r2.stn = stationId → r2 = r) →
      selectStation rows stationId = .ok r) ∧
    (∀ (rows : List StationRow) (stationId : String),
      stationId ∉ rows.map StationRow.stn →
      selectStation rows stationId = .error (.keyError stationId)) := by
  constructor
  · intro rows sid r hmem hstn huniq
    have hfind : lookupD (stationDict rows) sid = some r := by
      rw [stationDict, lookupD_dictOf,
        lookupLast_map_eq_find (fun r : StationRow => r.stn) rows sid]
      have hex : ∃ x, x ∈ rows.reverse ∧ (x.stn == sid) = true :=
        ⟨r, List.mem_reverse.mpr hmem, by simp [hstn]⟩
      obtain ⟨v, hv⟩ :=
        Option.isSome_iff_exists.mp (List.find?_isSome.mpr hex)
      have hvmem := List.mem_of_find?_eq_some hv
      have hvp := List.find?_some hv
      have hveq : v = r :=
        huniq v (List.mem_reverse.mp hvmem) (by simpa using hvp)
      rw [hv, hveq]
    simp [selectStation, hfind]
  · intro rows sid h
    have hnone : lookupD (stationDict rows) sid = none := by
      rw [stationDict, lookupD_dictOf,
        lookupLast_map_eq_find (fun r : StationRow => r.stn) rows sid]
      rw [List.find?_eq_none]
      intro x hx
      simp only [beq_iff_eq]
      intro he
      exact h (List.mem_map.mpr ⟨x, List.mem_reverse.mp hx, he⟩)
    simp [selectStation, hnone]

/-- C4, witness: the one-row table yields its row for the present
identifier and the KeyError for an absent one. -/
theorem station_select_w :
    selectStation [⟨"HKO", []⟩] "HKO" = .ok ⟨"HKO", []⟩ ∧
    selectStation [⟨"HKO", []⟩] "YYY" = .error (.keyError "YYY") :=
  ⟨station_select_spec.1 [⟨"HKO", []⟩] "HKO" ⟨"HKO", []⟩ (by decide) rfl (by decide),
   station_select_spec.2 [⟨"HKO", []⟩] "YYY" (by decide)⟩

/-!
Helper lemmas for the warnings mapping.
-/

theorem warnPairs_eq (l : List WarnEntry)
    (h : ∀ e ∈ l, (e.warningStatementCode).isSome = true) :
    warnPairs? l =
      some (l.map (fun e => ((e.warningStatementCode).getD "", e))) := by
  induction l with
  | nil => rfl
  | cons e t ih =>
    obtain ⟨c, hc⟩ :=
      Option.isSome_iff_exists.mp (h e (List.mem_cons_self e t))
    rw [warnPairs?, hc, ih (fun x hx => h x (List.mem_cons_of_mem e hx))]
    simp [hc]

theorem find?_congr_mem (l : List α) (p q : α → Bool)
    (h : ∀ e ∈ l, p e = q e) : l.find? p = l.find? q := by
  induction l with
  | nil => rfl
  | cons a t ih =>
    have ha := h a (List.mem_cons_self a t)
    cases hq : q a <;>
      simp [List.find?, ha, hq,
        ih (fun x hx => h x (List.mem_cons_of_mem a hx))]

theorem warnLookup_eq (l : List WarnEntry)
    (h : ∀ e ∈ l, (e.warningStatementCode).isSome = true) (c : String) :
    lookupD (getWarnings (some l)) c =
      l.reverse.find? (fun e => e.warningStatementCode == some c) := by
  rw [getWarnings, warnPairs_eq l h, lookupD_dictOf,
    lookupLast_map_eq_find (fun e : WarnEntry => (e.warningStatementCode).getD "") l c]
  apply find?_congr_mem
  intro e he
  obtain ⟨a, ha⟩ :=
    Option.isSome_iff_exists.mp (h e (List.mem_reverse.mp he))
  rw [ha]
  rfl

/-- C5: a warnings response without the details list yields the empty
mapping rather than an error; with the list present (every entry carrying
its code) the result maps each entry code to an entry of the list bearing
that code, and holds nothing else. -/
theorem warnings_soft_fail :
    getWarnings none = [] ∧
    (∀ l : List WarnEntry, (∀ e ∈ l, (e.warningStatementCode).isSome = true) →
      (∀ e ∈ l, ∀ c : String, e.warningStatementCode = some c →
        ∃ v, lookupD (getWarnings (some l)) c = some v ∧ v ∈ l ∧
          v.warningStatementCode = some c) ∧
      (∀ (c : String) (v : WarnEntry),
        lookupD (getWarnings (some l)) c = some v →
        v ∈ l ∧ v.warningStatementCode = some c)) := by
  refine ⟨rfl, ?_⟩
  intro l h
  constructor
  · intro e he c hc
    rw [warnLookup_eq l h c]
    have hex : ∃ x, x ∈ l.reverse ∧ (x.warningStatementCode == some c) = true :=
      ⟨e, List.mem_reverse.mpr he, by simp [hc]⟩
    obtain ⟨v, hv⟩ :=
      Option.isSome_iff_exists.mp (List.find?_isSome.mpr hex)
    refine ⟨v, hv, List.mem_reverse.mp (List.mem_of_find?_eq_some hv), ?_⟩
    simpa using List.find?_some hv
  · intro c v hv
    rw [warnLookup_eq l h c] at hv
    exact ⟨List.mem_reverse.mp (List.mem_of_find?_eq_some hv),
      by simpa using List.find?_some hv⟩

/-- C5, witness: the singleton details list maps its code to its entry. -/
theorem warnings_soft_fail_w :
    getWarnings none = [] ∧
    ∃ v, lookupD (getWarnings (some [⟨some "WTCSGNL", some "TC8NE", []⟩]))
        "WTCSGNL" = some v ∧
      v ∈ [(⟨some "WTCSGNL", some "TC8NE", []⟩ : WarnEntry)] ∧
      v.warningStatementCode = some "WTCSGNL" :=
  ⟨warnings_soft_fail.1,
   (warnings_soft_fail.2 [⟨some "WTCSGNL", some "TC8NE", []⟩] (by decide)).1
     ⟨some "WTCSGNL", some "TC8NE", []⟩ (by decide) "WTCSGNL" rfl⟩

/-!
Helper lemmas: the keys of a built dict are pairwise distinct.
-/

theorem mem_keys_dinsert [DecidableEq κ] (m : List (κ × α)) (k a : κ) (v : α) :
    a ∈ (dinsert m k v).map Prod.fst ↔ a = k ∨ a ∈ m.map Prod.fst := by
  induction m with
  | nil => simp [dinsert]
  | cons p t ih =>
    obtain ⟨k2, v2⟩ := p
    by_cases h : k2 = k
    · subst h
      have hred : dinsert ((k2, v2) :: t) k2 v = (k2, v) :: t := by simp [dinsert]
      rw [hred]
      simp only [List.map_cons, List.mem_cons]
      tauto
    · have hred : dinsert ((k2, v2) :: t) k v = (k2, v2) :: dinsert t k v := by
        simp [dinsert, h]
      rw [hred]
      simp only [List.map_cons, List.mem_cons, ih]
      tauto

theorem nodup_keys_dinsert [DecidableEq κ] (m : List (κ × α)) (k : κ) (v : α)
    (h : (m.map Prod.fst).Nodup) : ((dinsert m k v).map Prod.fst).Nodup := by
  induction m with
  | nil => simp [dinsert]
  | cons p t ih =>
    obtain ⟨k2, v2⟩ := p
    simp only [List.map_cons, List.nodup_cons] at h
    by_cases hk : k2 = k
    · subst hk
      have hred : dinsert ((k2, v2) :: t) k2 v = (k2, v) :: t := by simp [dinsert]
      rw [hred, List.map_cons, List.nodup_cons]
      exact h
    · have hred : dinsert ((k2, v2) :: t) k v = (k2, v2) :: dinsert t k v := by
        simp [dinsert, hk]
      rw [hred, List.map_cons, List.nodup_cons]
      refine ⟨?_, ih h.2⟩
      rw [mem_keys_dinsert]
      rintro (he | he)
      · exact hk he
      · exact h.1 he

theorem nodup_keys_dictOf [DecidableEq κ] (ps : List (κ × α)) :
    ((dictOf ps).map Prod.fst).Nodup := by
  suffices h : ∀ m : List (κ × α), (m.map Prod.fst).Nodup →
      ((ps.foldl (fun m p => dinsert m p.1 p.2) m).map Prod.fst).Nodup by
    exact h [] (by simp)
  induction ps with
  | nil => intro m hm; exact hm
  | cons p t ih =>
    intro m hm
    rw [List.foldl_cons]
    exact ih _ (nodup_keys_dinsert m p.1 p.2 hm)

theorem getWarnings_keys_nodup (d : Option (List WarnEntry)) :
    ((getWarnings d).map Prod.fst).Nodup := by
  cases d with
  | none => simp [getWarnings]
  | some l =>
    cases h : warnPairs? l with
    | none => simp [getWarnings, h]
    | some ps =>
      simp only [getWarnings, h]
      exact nodup_keys_dictOf ps

/-- C6: the built warning mapping keys each statement code once, and looks
each code up to the entry occurring latest in the reduction order of the
details list (the first match found when scanning the list reversed). -/
theorem warnings_last_wins :
    ∀ l : List WarnEntry, (∀ e ∈ l, (e.warningStatementCode).isSome = true) →
      ((getWarnings (some l)).map Prod.fst).Nodup ∧
      ∀ c : String, lookupD (getWarnings (some l)) c =
        l.reverse.find? (fun e => e.warningStatementCode == some c) :=
  fun l h => ⟨getWarnings_keys_nodup (some l), fun c => warnLookup_eq l h c⟩

/-- C6, witness: with two entries sharing a code, lookup returns the later
entry. -/
theorem warnings_last_wins_w :
    lookupD (getWarnings (some [⟨some "WRAIN", some "Amber", []⟩,
        ⟨some "WRAIN", some "Red", []⟩])) "WRAIN" =
      some ⟨some "WRAIN", some "Red", []⟩ := by
  have h := (warnings_last_wins
      [⟨some "WRAIN", some "Amber", []⟩, ⟨some "WRAIN", some "Red", []⟩]
      (by decide)).2 "WRAIN"
  rw [h]
  rfl

/-!
Helper lemmas for the forecast views.
-/

theorem get_forecast_filter (l : List FEntry) :
    get_forecast l =
      exceptMap projectHourly (l.filter (fun e => e.forecastWeather.isSome)) := by
  induction l with
  | nil => rfl
  | cons e t ih =>
    cases hw : e.forecastWeather.isSome <;>
      simp [get_forecast, List.filter_cons, hw, exceptMap, ih]

theorem forecast_daily_filter (l : List FEntry) :
    forecast_daily l =
      exceptMap projectDaily (l.filter (fun e => e.forecastDailyWeather.isSome)) := by
  induction l with
  | nil => rfl
  | cons e t ih =>
    cases hw : e.forecastDailyWeather.isSome <;>
      simp [forecast_daily, List.filter_cons, hw, exceptMap, ih]

/-- C10: each forecast view presents exactly the entries carrying its
weather-code key, projected in the upstream relative order (the
comprehension equals filtering the upstream list by key membership and
mapping the projection in order), and an entry lacking the key contributes
nothing to the view. -/
theorem forecast_key_filter :
    (∀ l, get_forecast l =
      exceptMap projectHourly (l.filter (fun e => e.forecastWeather.isSome))) ∧
    (∀ l, forecast_daily l =
      exceptMap projectDaily (l.filter (fun e => e.forecastDailyWeather.isSome))) ∧
    (∀ (e : FEntry) (t : List FEntry),
      get_forecast ({ e with forecastWeather := none } :: t) = get_forecast t) ∧
    (∀ (e : FEntry) (t : List FEntry),
      forecast_daily ({ e with forecastDailyWeather := none } :: t) =
        forecast_daily t) :=
  ⟨get_forecast_filter, forecast_daily_filter,
   fun _ _ => rfl, fun _ _ => rfl⟩

end HKO
